import Mathlib

/-!
Verification of the hotkeys dispatch core.

The definitions below are a shallow embedding of the repository's hotkey
manager (`src/unnamed/part_005`, i.e. the manager source file), of the
`formatParsedHotkey` helper (`src/unnamed/part_004`, useHotkey source), and —
for the parser, matcher, conflict-detection and sequence engine, whose
implementation files are not present under `src/` (only their tests and
changesets are) — models written from the specification's words.

Descriptors are embedded as their `+`-separated token lists (the delimiter
layer of the string form is a bijection between valid descriptor strings and
their token lists).  DOM nodes are embedded as a small closed variant
(`document`, `window`, or an element identified by a numeric identity), with
the browser-provided facts about elements (containment, input-control class,
contenteditable attribute) packaged in a `DomEnv` environment.  Keyboard
events carry the key name, the four modifier flags, and the `target` /
`currentTarget` references, exactly the fields the source reads.
-/

namespace Hotkeys

/-- Operating-system platform family, as produced by `detectPlatform`. -/
inductive Platform where
  | mac
  | windows
  | linux
deriving DecidableEq, Repr

/-- A DOM event target: the document, the window, or an element identified by
its object identity (a numeric id).  Scope comparison in the source is by
object identity, which this captures. -/
inductive DomNode where
  | document
  | window
  | elem (id : Nat)
deriving DecidableEq, Repr

/-- Browser-provided facts about elements that the manager consults:
`contains i n` models `(element i).contains(n)` (descendant-or-self),
`isInputCtrl i` models `i instanceof HTMLInputElement || i instanceof
HTMLTextAreaElement || i instanceof HTMLSelectElement`, `contentEditable i`
models the element's `contentEditable` property, and `documentElementId` is
the identity of `document.documentElement`. -/
structure DomEnv where
  contains : Nat → DomNode → Bool
  isInputCtrl : Nat → Bool
  contentEditable : Nat → String
  documentElementId : Nat

/-- `n instanceof Node`: the document and elements are Nodes, the window is
not. -/
def isNode : DomNode → Bool
  | .document => true
  | .window => false
  | .elem _ => true

/-- Which listener kind delivered the event. -/
inductive EventType where
  | keydown
  | keyup
deriving DecidableEq, Repr

/-- A keyboard input event: key name, the four modifier flags, the event's
true origin (`target`, may be null) and its listener-attachment point
(`currentTarget`, may be null). -/
structure KeyEvent where
  key : String
  ctrlKey : Bool
  shiftKey : Bool
  altKey : Bool
  metaKey : Bool
  target : Option DomNode
  currentTarget : Option DomNode
deriving DecidableEq, Repr

/-- Canonical parsed hotkey: normalized key name plus the four
platform-resolved modifier flags. -/
structure ParsedHotkey where
  key : String
  ctrl : Bool
  shift : Bool
  alt : Bool
  meta : Bool
deriving DecidableEq, Repr

/-- ASCII lower-casing of a string (models JavaScript's `toLowerCase` on the
key names involved), written structurally over the character list. -/
def lowerStr (s : String) : String :=
  String.mk (s.data.map Char.toLower)

/-- Is the string empty or whitespace-only? -/
def isBlank (s : String) : Bool :=
  s.data.all (fun c => c == ' ' || c == '\t' || c == '\n' || c == '\r')

/-- Association-list lookup keyed by string equality. -/
def tblLookup (a : String) : List (String × String) → Option String
  | [] => none
  | (k, v) :: rest => if a = k then some v else tblLookup a rest

/-- Modelled from the spec: the key-name canonicalization table ("case and
alias folding: e.g. Esc→Escape, Del→Delete, Return→Enter"; the parser source
is not under `src/`).  Keys are the lower-cased spellings; values are the
canonical names.  Single letters fold to their upper-case canonical form. -/
def canonTable : List (String × String) :=
  [("esc", "Escape"), ("escape", "Escape"),
   ("return", "Enter"), ("enter", "Enter"),
   ("del", "Delete"), ("delete", "Delete"),
   ("a", "A"), ("b", "B"), ("c", "C"), ("d", "D"), ("e", "E"), ("f", "F"),
   ("g", "G"), ("h", "H"), ("i", "I"), ("j", "J"), ("k", "K"), ("l", "L"),
   ("m", "M"), ("n", "N"), ("o", "O"), ("p", "P"), ("q", "Q"), ("r", "R"),
   ("s", "S"), ("t", "T"), ("u", "U"), ("v", "V"), ("w", "W"), ("x", "X"),
   ("y", "Y"), ("z", "Z")]

/-- Modelled from the spec: canonicalize a key name by case and alias
folding; names outside the table are kept as written ("unknown keys are
accepted"). -/
def canonKey (k : String) : String :=
  match tblLookup (lowerStr k) canonTable with
  | some c => c
  | none => k

/-- Modelled from the spec: the recognized modifier-name tokens, compared
case-insensitively ("Option"≡"Alt", "Cmd"/"Command"/"Windows"≡"Meta", "Mod"
resolves per platform). -/
def modifierTokens : List String :=
  ["control", "ctrl", "shift", "alt", "option", "meta", "cmd", "command",
   "windows", "mod"]

/-- Is this descriptor token a modifier name (case-insensitively)? -/
def isModTok (s : String) : Bool :=
  modifierTokens.contains (lowerStr s)

/-- Modelled from the spec: fold one modifier token into the flag set;
"Mod" resolves to `meta` on the mac platform family and `ctrl` otherwise. -/
def applyModTok (p : Platform) (f : ParsedHotkey) (t : String) : ParsedHotkey :=
  let l := lowerStr t
  if l = "control" ∨ l = "ctrl" then { f with ctrl := true }
  else if l = "shift" then { f with shift := true }
  else if l = "alt" ∨ l = "option" then { f with alt := true }
  else if l = "meta" ∨ l = "cmd" ∨ l = "command" ∨ l = "windows" then
    { f with meta := true }
  else if l = "mod" then
    (if p = Platform.mac then { f with meta := true } else { f with ctrl := true })
  else f

/-- Parse failure taxonomy from the spec: empty/whitespace-only descriptor,
unrecognized modifier token, or no primary key segment. -/
inductive ParseError where
  | emptyHotkey
  | unknownModifier
  | missingKey
deriving DecidableEq, Repr

/-- Modelled from the spec: `parse(descriptor, platform)` over the
descriptor's token list (the parser source is not under `src/`).  The last
non-modifier token is the primary key, every other token is a modifier name;
fails when the descriptor is empty or whitespace-only, when a non-primary
token is not a recognized modifier, or when every token is a modifier (no
primary key segment). -/
def parseHotkey (toks : List String) (p : Platform) :
    Except ParseError ParsedHotkey :=
  if toks.all (fun t => isBlank t) then .error .emptyHotkey
  else
    match toks.filter (fun t => !isModTok t) with
    | [k] =>
      .ok ((toks.filter isModTok).foldl (applyModTok p)
        { key := canonKey k, ctrl := false, shift := false, alt := false,
          meta := false })
    | [] => .error .missingKey
    | _ => .error .unknownModifier

/-- From the source (`formatParsedHotkey` in the useHotkey source file):
formats a parsed hotkey back to its descriptor token list, in the order
Control, Alt, Shift, Meta, then the key. -/
def formatParsedHotkey (parsed : ParsedHotkey) : List String :=
  (if parsed.ctrl then ["Control"] else []) ++
  (if parsed.alt then ["Alt"] else []) ++
  (if parsed.shift then ["Shift"] else []) ++
  (if parsed.meta then ["Meta"] else []) ++
  [parsed.key]

/-- Modelled from the spec: the Event Matcher (`matchesKeyboardEvent`; the
matcher source is not under `src/`): the event's key is compared
case-insensitively and alias-folded against the parsed key, and all four
modifier flags must match exactly. -/
def matchesKeyboardEvent (event : KeyEvent) (parsed : ParsedHotkey)
    (_platform : Platform) : Bool :=
  canonKey event.key == canonKey parsed.key &&
  event.ctrlKey == parsed.ctrl && event.shiftKey == parsed.shift &&
  event.altKey == parsed.alt && event.metaKey == parsed.meta

/-- The action a callback performs when invoked.  Callbacks are embedded as
an identity (`cbId`) plus a synchronous effect on the manager: nothing, a
`register` call, or an `unregister` call (registrations created from inside a
callback get the do-nothing action). -/
inductive CbAction where
  | pure
  | registerHotkey (toks : List String) (cbId : Nat)
  | unregisterId (id : Nat)
deriving DecidableEq, Repr

/-- Fully-resolved per-registration options (the record built by `register`
after applying defaults). -/
structure Options where
  preventDefault : Bool
  stopPropagation : Bool
  eventType : EventType
  requireReset : Bool
  enabled : Bool
  ignoreInputs : Bool
  platform : Platform
deriving DecidableEq, Repr

/-- The optional overrides a caller passes to `register` (`HotkeyOptions`);
`none` fields fall back to the manager defaults. -/
structure OptArgs where
  preventDefault : Option Bool := none
  stopPropagation : Option Bool := none
  eventType : Option EventType := none
  requireReset : Option Bool := none
  enabled : Option Bool := none
  ignoreInputs : Option Bool := none
  platform : Option Platform := none
  target : Option DomNode := none
deriving DecidableEq, Repr

/-- From the source: the defaulted options record built inside `register`
(`preventDefault: false, stopPropagation: false, eventType: 'keydown',
requireReset: false, enabled: true, ignoreInputs: true, ...options,
platform`). -/
def buildOptions (opts : OptArgs) (platformR : Platform) : Options :=
  { preventDefault := opts.preventDefault.getD false,
    stopPropagation := opts.stopPropagation.getD false,
    eventType := opts.eventType.getD .keydown,
    requireReset := opts.requireReset.getD false,
    enabled := opts.enabled.getD true,
    ignoreInputs := opts.ignoreInputs.getD true,
    platform := platformR }

/-- A registration record (`HotkeyRegistration`). -/
structure Registration where
  id : Nat
  hotkey : List String
  parsedHotkey : ParsedHotkey
  cbId : Nat
  cbAction : CbAction
  options : Options
  hasFired : Bool
  target : DomNode
deriving DecidableEq, Repr

/-- Manager state: the module-level id counter, the registration table
(insertion-ordered, keyed by id), the set of targets with an attached
press/release listener pair, and the per-target registration-id sets
(insertion-ordered). -/
structure MState where
  counter : Nat
  registrations : List Registration
  targetListeners : List DomNode
  targetRegs : List (DomNode × List Nat)
deriving DecidableEq, Repr

/-- A manager with no registrations and the module-level counter at `c`. -/
def mkEmpty (c : Nat) : MState :=
  { counter := c, registrations := [], targetListeners := [], targetRegs := [] }

/-- Fresh process state: counter 0, no registrations. -/
def initState : MState := mkEmpty 0

/-- Association-list lookup over the target-registration table (models
`targetRegistrations.get(target)`). -/
def lookupTR : List (DomNode × List Nat) → DomNode → Option (List Nat)
  | [], _ => none
  | (k, v) :: rest, t => if k = t then some v else lookupTR rest t

/-- Set a target's registration-id list (models `targetRegistrations.set`). -/
def setTR : List (DomNode × List Nat) → DomNode → List Nat →
    List (DomNode × List Nat)
  | [], t, ids => [(t, ids)]
  | (k, v) :: rest, t, ids =>
    if k = t then (k, ids) :: rest else (k, v) :: setTR rest t ids

/-- Delete a target's entry from the target-registration table (models
`targetRegistrations.delete(target)`). -/
def eraseKeyTR : List (DomNode × List Nat) → DomNode → List (DomNode × List Nat)
  | [], _ => []
  | (k, v) :: rest, t =>
    if k = t then eraseKeyTR rest t else (k, v) :: eraseKeyTR rest t

/-- Delete an id from a registration-id set (models `Set.delete`). -/
def eraseId : List Nat → Nat → List Nat
  | [], _ => []
  | x :: rest, id => if x = id then eraseId rest id else x :: eraseId rest id

/-- Delete a registration from the registration table by id (models
`registrations.delete(id)`). -/
def eraseReg : List Registration → Nat → List Registration
  | [], _ => []
  | r :: rest, id => if r.id = id then eraseReg rest id else r :: eraseReg rest id

/-- Delete a target from the attached-listener set (models
`targetListeners.delete(target)`). -/
def eraseListener : List DomNode → DomNode → List DomNode
  | [], _ => []
  | x :: rest, t => if x = t then eraseListener rest t else x :: eraseListener rest t

/-- Models the `register` steps `if (!targetRegistrations.has(target))
targetRegistrations.set(target, new Set()); targetRegistrations.get(target)
.add(id)`. -/
def addIdTR (trs : List (DomNode × List Nat)) (t : DomNode) (id : Nat) :
    List (DomNode × List Nat) :=
  setTR trs t (((lookupTR trs t).getD []) ++ [id])

/-- The registration-id set currently bound to a target (empty when the
target has no entry). -/
def regIdsAt (st : MState) (t : DomNode) : List Nat :=
  (lookupTR st.targetRegs t).getD []

/-- From the source: `ensureListenersForTarget` — attach the press/release
listener pair unless one is already attached for this target. -/
def ensureListenersForTarget (ls : List DomNode) (t : DomNode) : List DomNode :=
  if ls.contains t then ls else ls ++ [t]

/-- From the source: `removeListenersForTarget` — returns unchanged when no
listeners exist for the target; otherwise detaches them and deletes both the
listener entry and the target's registration-set entry. -/
def removeListenersForTarget (st : MState) (t : DomNode) : MState :=
  if st.targetListeners.contains t then
    { st with
      targetListeners := eraseListener st.targetListeners t,
      targetRegs := eraseKeyTR st.targetRegs t }
  else st

/-- From the source: the post-parse body of `register` — generate the next id
(`++registrationIdCounter`), resolve the target (default: the document),
build the defaulted options record, store the registration, add its id to
the target's set, and ensure listeners for the target.  Returns the new
state and the assigned id. -/
def registerParsed (st : MState) (platformR : Platform) (toks : List String)
    (parsed : ParsedHotkey) (cbId : Nat) (cbAction : CbAction)
    (opts : OptArgs) : MState × Nat :=
  let id := st.counter + 1
  let target := opts.target.getD .document
  let reg : Registration :=
    { id := id, hotkey := toks, parsedHotkey := parsed, cbId := cbId,
      cbAction := cbAction, options := buildOptions opts platformR,
      hasFired := false, target := target }
  ({ counter := id,
     registrations := st.registrations ++ [reg],
     targetListeners := ensureListenersForTarget st.targetListeners target,
     targetRegs := addIdTR st.targetRegs target id }, id)

/-- From the source: `HotkeyManager.register` — parse the descriptor (a parse
failure propagates to the caller), then store the registration. -/
def register (st : MState) (platform : Platform) (toks : List String)
    (cbId : Nat) (cbAction : CbAction) (opts : OptArgs) :
    Except ParseError (MState × Nat) :=
  let platformR := opts.platform.getD platform
  match parseHotkey toks platformR with
  | .error e => .error e
  | .ok parsed => .ok (registerParsed st platformR toks parsed cbId cbAction opts)

/-- From the source: `HotkeyManager.unregister` — no-op for unknown ids;
otherwise delete the registration, remove its id from its target's set, and
tear the target's listeners down when that set becomes empty. -/
def unregister (st : MState) (id : Nat) : MState :=
  match st.registrations.find? (fun r => r.id == id) with
  | none => st
  | some reg =>
    let target := reg.target
    let st1 : MState :=
      { st with registrations := eraseReg st.registrations id }
    match lookupTR st1.targetRegs target with
    | none => st1
    | some ids =>
      let ids' := eraseId ids id
      let st2 : MState := { st1 with targetRegs := setTR st1.targetRegs target ids' }
      if ids' = [] then removeListenersForTarget st2 target else st2

/-- From the source: `destroy` — detach every listener and clear all
registration and scope-partition state; the module-level id counter is not
touched.  `resetInstance` (destroy, then lazy re-creation on next access) is
observationally this same emptied state with the counter preserved. -/
def destroy (st : MState) : MState :=
  { st with registrations := [], targetListeners := [], targetRegs := [] }

/-- From the source: `isEventForTarget` — for document/window targets the
event's `currentTarget` must equal the target; for element targets, either
`currentTarget` equals the element or the event's `target` is a Node
contained in the element. -/
def isEventForTarget (env : DomEnv) (event : KeyEvent) (target : DomNode) :
    Bool :=
  if target = DomNode.document ∨ target = DomNode.window then
    event.currentTarget == some target
  else
    match target with
    | .elem i =>
      if event.currentTarget == some (DomNode.elem i) then true
      else
        match event.target with
        | some t => isNode t && env.contains i t
        | none => false
    | _ => false

/-- From the source: `isInputElement` — input/textarea/select elements, and
any element whose `contentEditable` is `'true'` or `''`. -/
def isInputElement (env : DomEnv) (element : Option DomNode) : Bool :=
  match element with
  | none => false
  | some n =>
    match n with
    | .elem i =>
      if env.isInputCtrl i then true
      else
        let ce := env.contentEditable i
        ce == "true" || ce == ""
    | _ => false

/-- From the source: `shouldResetRegistration` — the released key (lower
cased) is the parsed primary key (lower cased), or the name of a modifier the
parsed hotkey requires. -/
def shouldResetRegistration (registration : Registration) (event : KeyEvent) :
    Bool :=
  let parsed := registration.parsedHotkey
  let releasedKey := lowerStr event.key
  if releasedKey = lowerStr parsed.key then true
  else if parsed.ctrl && (releasedKey == "control" || releasedKey == "ctrl") then
    true
  else if parsed.shift && releasedKey == "shift" then true
  else if parsed.alt && (releasedKey == "alt" || releasedKey == "option") then
    true
  else if parsed.meta && (releasedKey == "meta" || releasedKey == "command") then
    true
  else false

/-- Observable outcome of processing one event for one registration: whether
the Matcher was consulted, whether the callback was executed, whether
`preventDefault` / `stopPropagation` were applied, and the (possibly updated)
registration record. -/
structure StepResult where
  matcherConsulted : Bool
  callbackRun : Bool
  preventedDefault : Bool
  stoppedPropagation : Bool
  registration : Registration
deriving DecidableEq, Repr

/-- From the source: the per-registration body of `processTargetEvent` — the
scope-satisfaction, enabled, and input-suppression guards, then the
keydown branch (trigger-phase check, latch check, Matcher, callback with
suppression side effects, latch set) or the keyup branch (Matcher and
callback for release-triggered registrations, then the latch-reset check). -/
def processRegistration (env : DomEnv) (event : KeyEvent) (target : DomNode)
    (eventType : EventType) (registration : Registration) : StepResult :=
  let skip : StepResult :=
    { matcherConsulted := false, callbackRun := false, preventedDefault := false,
      stoppedPropagation := false, registration := registration }
  if ¬(isEventForTarget env event target = true) then skip
  else if ¬(registration.options.enabled = true) then skip
  else if registration.options.ignoreInputs = true ∧
      isInputElement env event.target = true ∧
      ¬(event.target = some registration.target) then skip
  else
    match eventType with
    | .keydown =>
      if ¬(registration.options.eventType = .keydown) then skip
      else if registration.options.requireReset = true ∧
          registration.hasFired = true then skip
      else if matchesKeyboardEvent event registration.parsedHotkey
          registration.options.platform then
        { matcherConsulted := true, callbackRun := true,
          preventedDefault := registration.options.preventDefault,
          stoppedPropagation := registration.options.stopPropagation,
          registration :=
            { registration with
              hasFired :=
                if registration.options.requireReset then true
                else registration.hasFired } }
      else { skip with matcherConsulted := true }
    | .keyup =>
      let afterFire : StepResult :=
        if registration.options.eventType = .keyup then
          if matchesKeyboardEvent event registration.parsedHotkey
              registration.options.platform then
            { matcherConsulted := true, callbackRun := true,
              preventedDefault := registration.options.preventDefault,
              stoppedPropagation := registration.options.stopPropagation,
              registration := registration }
          else { skip with matcherConsulted := true }
        else skip
      if registration.options.requireReset = true ∧
          registration.hasFired = true then
        if shouldResetRegistration registration event then
          { afterFire with
            registration := { afterFire.registration with hasFired := false } }
        else afterFire
      else afterFire

/-- Apply a callback's synchronous effect to the manager (callbacks may call
`register` or `unregister` from inside a dispatch pass). -/
def applyCbAction (st : MState) (platform : Platform) : CbAction → MState
  | .pure => st
  | .registerHotkey toks cbId =>
    match register st platform toks cbId .pure {} with
    | .ok (st', _) => st'
    | .error _ => st
  | .unregisterId id => unregister st id

/-- From the source: the `processTargetEvent` loop, `for (const id of
targetRegs)`.  A JavaScript `Set` iterator visits the live set: the next
element visited is the first member of the current set not yet visited, so
ids deleted before their turn are skipped and ids added during the pass are
visited.  Each visited id is looked up in the registration table (skipped if
gone), processed, its stored record updated, and its callback's synchronous
effect applied.  Returns the final state and the ids whose callbacks fired,
in firing order.  `fuel` bounds the number of loop steps. -/
def dispatchLoop (env : DomEnv) (platform : Platform) (event : KeyEvent)
    (target : DomNode) (eventType : EventType) :
    Nat → MState → List Nat → MState × List Nat
  | 0, st, _ => (st, [])
  | fuel + 1, st, visited =>
    match (regIdsAt st target).find? (fun id => !(visited.contains id)) with
    | none => (st, [])
    | some id =>
      let visited' := visited ++ [id]
      match st.registrations.find? (fun r => r.id == id) with
      | none => dispatchLoop env platform event target eventType fuel st visited'
      | some reg =>
        let res := processRegistration env event target eventType reg
        let st1 : MState :=
          { st with
            registrations := st.registrations.map
              (fun r => if r.id = id then res.registration else r) }
        if res.callbackRun then
          let st2 := applyCbAction st1 platform reg.cbAction
          let next := dispatchLoop env platform event target eventType fuel st2 visited'
          (next.1, id :: next.2)
        else
          dispatchLoop env platform event target eventType fuel st1 visited'

/-- One dispatch pass over one raw event observed on one scope's listener. -/
def processTargetEvent (env : DomEnv) (platform : Platform) (event : KeyEvent)
    (target : DomNode) (eventType : EventType) (fuel : Nat) (st : MState) :
    MState × List Nat :=
  dispatchLoop env platform event target eventType fuel st []

/-- Conflict-resolution policy (`conflictBehavior`). -/
inductive ConflictBehavior where
  | warn
  | error
  | replace
  | allow
deriving DecidableEq, Repr

/-- Failure modes of a conflict-checking `register` call. -/
inductive RegisterError where
  | parseErr (e : ParseError)
  | conflictErr
deriving DecidableEq, Repr

/-- Modelled from the spec: conflict detection in `HotkeyManager.register`
(the implementation is not under `src/`; only its changeset and tests are).
After parsing, scan existing registrations for one with an identical
canonical parsed hotkey and identical scope; if found apply the requested
policy (default `warn`): `warn` emits one diagnostic and proceeds, `error`
fails the registration leaving the prior one untouched, `replace`
unregisters the prior colliding registration then proceeds, `allow` proceeds
silently.  Returns the new state, the assigned id, and the updated count of
emitted warnings. -/
def registerWithConflict (st : MState) (warnings : Nat) (platform : Platform)
    (toks : List String) (cbId : Nat) (behavior? : Option ConflictBehavior)
    (opts : OptArgs) : Except RegisterError (MState × Nat × Nat) :=
  let platformR := opts.platform.getD platform
  match parseHotkey toks platformR with
  | .error e => .error (.parseErr e)
  | .ok parsed =>
    let target := opts.target.getD .document
    let behavior := behavior?.getD .warn
    match st.registrations.find?
        (fun r => r.parsedHotkey == parsed && r.target == target) with
    | some prior =>
      match behavior with
      | .warn =>
        let (st', id) := registerParsed st platformR toks parsed cbId .pure opts
        .ok (st', id, warnings + 1)
      | .error => .error .conflictErr
      | .replace =>
        let (st', id) :=
          registerParsed (unregister st prior.id) platformR toks parsed cbId
            .pure opts
        .ok (st', id, warnings)
      | .allow =>
        let (st', id) := registerParsed st platformR toks parsed cbId .pure opts
        .ok (st', id, warnings)
    | none =>
      let (st', id) := registerParsed st platformR toks parsed cbId .pure opts
      .ok (st', id, warnings)

/-- From the source: `getRegistrationCount`. -/
def getRegistrationCount (st : MState) : Nat :=
  st.registrations.length

/-- A top-level manager operation: a `register` call, an `unregister` call,
or a `resetInstance` (destroy plus lazy re-creation, which preserves the
module-level id counter). -/
inductive MOp where
  | reg (platform : Platform) (toks : List String) (cbId : Nat) (opts : OptArgs)
  | unreg (id : Nat)
  | reset
deriving Repr

/-- Apply one top-level operation (a failed `register` leaves the state
unchanged for the caller). -/
def applyOp (st : MState) : MOp → MState
  | .reg p toks cbId opts =>
    match register st p toks cbId .pure opts with
    | .ok (st', _) => st'
    | .error _ => st
  | .unreg id => unregister st id
  | .reset => destroy st

/-- Run a sequence of top-level operations from the fresh process state. -/
def runOps (ops : List MOp) : MState :=
  ops.foldl applyOp initState

/-- The registration ids assigned (returned by successful `register` calls)
along a sequence of top-level operations, in order. -/
def assignedIdsFrom (st : MState) : List MOp → List Nat
  | [] => []
  | op :: rest =>
    match op with
    | .reg p toks cbId opts =>
      match register st p toks cbId .pure opts with
      | .ok (st', id) => id :: assignedIdsFrom st' rest
      | .error _ => assignedIdsFrom st rest
    | .unreg id => assignedIdsFrom (unregister st id) rest
    | .reset => assignedIdsFrom (destroy st) rest

/-- The registration ids assigned across an entire process lifetime. -/
def assignedIds (ops : List MOp) : List Nat :=
  assignedIdsFrom initState ops

/-- Sequence-engine state for one sequence registration: the progress index
and the pending timeout's deadline (absolute time), if any. -/
structure SeqState where
  progressIndex : Nat
  deadline : Option Nat
deriving DecidableEq, Repr

/-- The sequence's effective progress at dispatch time: an elapsed timeout
has silently reset it to 0. -/
def seqEffProgress (s : SeqState) (now : Nat) : Nat :=
  match s.deadline with
  | some d => if d < now then 0 else s.progressIndex
  | none => s.progressIndex

/-- Modelled from the spec: the Sequence Engine's per-press step (the
sequence source is not under `src/`; only its tests are).  An elapsed
timeout first silently resets progress to 0 (`seqEffProgress`).  Then: a key
matching `orderedKeys[progressIndex]` advances (completing invokes the
callback and resets progress, clearing the timeout); otherwise a key
matching `orderedKeys[0]` restarts matching at progress 1 and (re)starts the
timeout; otherwise progress resets to 0 and the timeout is cleared.  Keys
are canonicalized as in the parser.  Returns the new state and whether the
sequence completed (callback fired). -/
def seqStep (orderedKeys : List String) (timeoutMillis : Option Nat)
    (s : SeqState) (key : String) (now : Nat) : SeqState × Bool :=
  let p := seqEffProgress s now
  let k := canonKey key
  if (orderedKeys.get? p).map canonKey = some k then
    let p' := p + 1
    if p' = orderedKeys.length then
      ({ progressIndex := 0, deadline := none }, true)
    else
      ({ progressIndex := p', deadline := timeoutMillis.map (fun d => now + d) },
        false)
  else if (orderedKeys.get? 0).map canonKey = some k then
    ({ progressIndex := 1, deadline := timeoutMillis.map (fun d => now + d) },
      false)
  else
    ({ progressIndex := 0, deadline := none }, false)

/-- A concrete browser environment used for closed evaluations: element 2 is
`document.documentElement`; element 100 is an input control; no element
contains another; `contentEditable` is `'inherit'` everywhere. -/
def testEnv : DomEnv :=
  { contains := fun _ _ => false,
    isInputCtrl := fun i => i == 100,
    contentEditable := fun _ => "inherit",
    documentElementId := 2 }

/-- Does the parsed hotkey require at least one modifier? -/
def anyFlag (f : ParsedHotkey) : Bool :=
  f.ctrl || f.shift || f.alt || f.meta

/-- The scope-partition invariant: a target has listeners attached iff its
registration-id set is non-empty. -/
def ListenInv (st : MState) : Prop :=
  ∀ t, t ∈ st.targetListeners ↔ regIdsAt st t ≠ []

/-- Claim C2: the target-satisfaction rule is required (by the repository's
own changeset and its tests) to accept `document.documentElement` as the
listener-attachment point when the scope is the document, but the source
`isEventForTarget` compares the attachment point against the document alone:
the same Brave-style event that must fire is rejected, while the standard
attachment point is accepted. -/
theorem isEventForTarget_rejects_documentElement :
    isEventForTarget testEnv
      { key := "s", ctrlKey := false, shiftKey := false, altKey := false,
        metaKey := true, target := some (.elem 7),
        currentTarget := some (.elem testEnv.documentElementId) }
      .document = false ∧
    isEventForTarget testEnv
      { key := "s", ctrlKey := false, shiftKey := false, altKey := false,
        metaKey := true, target := some (.elem 7),
        currentTarget := some .document }
      .document = true := by
  decide

/-- Claim C3: while a latch-until-release registration is latched
(`requireReset` on and `hasFired` set), every press event is skipped for that
registration: the Matcher is not consulted, the callback is not executed, no
prevent-default / stop-propagation side effect is applied, and the
registration record (latch included) is unchanged. -/
theorem latched_press_skipped (env : DomEnv) (event : KeyEvent)
    (target : DomNode) (registration : Registration)
    (hreset : registration.options.requireReset = true)
    (hfired : registration.hasFired = true) :
    processRegistration env event target .keydown registration =
      { matcherConsulted := false, callbackRun := false,
        preventedDefault := false, stoppedPropagation := false,
        registration := registration } := by
  unfold processRegistration
  split_ifs with h1 h2 h3 h4 h5 <;> simp_all

/-- Witness for C3 at a concrete latched registration and press event. -/
theorem latched_press_skipped_witness :
    processRegistration testEnv
      { key := "k", ctrlKey := false, shiftKey := false, altKey := false,
        metaKey := false, target := some (.elem 7),
        currentTarget := some .document }
      .document .keydown
      { id := 1, hotkey := ["k"],
        parsedHotkey :=
          { key := "K", ctrl := false, shift := false, alt := false,
            meta := false },
        cbId := 10, cbAction := .pure,
        options :=
          { preventDefault := true, stopPropagation := true,
            eventType := .keydown, requireReset := true, enabled := true,
            ignoreInputs := true, platform := .windows },
        hasFired := true, target := .document } =
      { matcherConsulted := false, callbackRun := false,
        preventedDefault := false, stoppedPropagation := false,
        registration :=
          { id := 1, hotkey := ["k"],
            parsedHotkey :=
              { key := "K", ctrl := false, shift := false, alt := false,
                meta := false },
            cbId := 10, cbAction := .pure,
            options :=
              { preventDefault := true, stopPropagation := true,
                eventType := .keydown, requireReset := true, enabled := true,
                ignoreInputs := true, platform := .windows },
            hasFired := true, target := .document } } :=
  latched_press_skipped testEnv _ .document _ rfl rfl

/-- The released-key test of `shouldResetRegistration`, spelled out: the
released key (lower-cased) is the parsed primary key, or a required
modifier's name. -/
theorem shouldReset_iff (registration : Registration) (event : KeyEvent) :
    shouldResetRegistration registration event = true ↔
      (lowerStr event.key = lowerStr registration.parsedHotkey.key ∨
       (registration.parsedHotkey.ctrl = true ∧
         (lowerStr event.key = "control" ∨ lowerStr event.key = "ctrl")) ∨
       (registration.parsedHotkey.shift = true ∧ lowerStr event.key = "shift") ∨
       (registration.parsedHotkey.alt = true ∧
         (lowerStr event.key = "alt" ∨ lowerStr event.key = "option")) ∨
       (registration.parsedHotkey.meta = true ∧
         (lowerStr event.key = "meta" ∨ lowerStr event.key = "command"))) := by
  unfold shouldResetRegistration
  dsimp only
  split_ifs with h1 h2 h3 h4 h5 <;> simp_all

/-- Claim C4: for a latched registration, a release event that reaches the
registration's processing clears the latch if and only if the released key,
lower-cased, is the registration's primary key or the name of a modifier the
registration requires; any other release leaves the latch set. -/
theorem latch_cleared_iff_required_key_released (env : DomEnv)
    (event : KeyEvent) (target : DomNode) (registration : Registration)
    (hreset : registration.options.requireReset = true)
    (hfired : registration.hasFired = true)
    (hfor : isEventForTarget env event target = true)
    (hen : registration.options.enabled = true)
    (hsup : ¬(registration.options.ignoreInputs = true ∧
        isInputElement env event.target = true ∧
        ¬(event.target = some registration.target))) :
    ((processRegistration env event target .keyup registration).registration.hasFired
        = false) ↔
      (lowerStr event.key = lowerStr registration.parsedHotkey.key ∨
       (registration.parsedHotkey.ctrl = true ∧
         (lowerStr event.key = "control" ∨ lowerStr event.key = "ctrl")) ∨
       (registration.parsedHotkey.shift = true ∧ lowerStr event.key = "shift") ∨
       (registration.parsedHotkey.alt = true ∧
         (lowerStr event.key = "alt" ∨ lowerStr event.key = "option")) ∨
       (registration.parsedHotkey.meta = true ∧
         (lowerStr event.key = "meta" ∨ lowerStr event.key = "command"))) := by
  rw [← shouldReset_iff registration event]
  unfold processRegistration
  simp only [hfor, hen, hreset, hfired]
  split_ifs with h1 h2 h3 h4 <;> simp_all

/-- Witness for C4: releasing the primary key of a latched `Mod+S`-style
registration clears the latch (left-to-right direction at a concrete
input). -/
theorem latch_cleared_iff_required_key_released_witness :
    (processRegistration testEnv
      { key := "S", ctrlKey := false, shiftKey := false, altKey := false,
        metaKey := true, target := some (.elem 7),
        currentTarget := some .document }
      .document .keyup
      { id := 1, hotkey := ["Mod", "S"],
        parsedHotkey :=
          { key := "S", ctrl := false, shift := false, alt := false,
            meta := true },
        cbId := 10, cbAction := .pure,
        options :=
          { preventDefault := false, stopPropagation := false,
            eventType := .keydown, requireReset := true, enabled := true,
            ignoreInputs := true, platform := .mac },
        hasFired := true, target := .document }).registration.hasFired
      = false := by
  have h := latch_cleared_iff_required_key_released testEnv
    { key := "S", ctrlKey := false, shiftKey := false, altKey := false,
      metaKey := true, target := some (.elem 7),
      currentTarget := some .document }
    .document
    { id := 1, hotkey := ["Mod", "S"],
      parsedHotkey :=
        { key := "S", ctrl := false, shift := false, alt := false,
          meta := true },
      cbId := 10, cbAction := .pure,
      options :=
        { preventDefault := false, stopPropagation := false,
          eventType := .keydown, requireReset := true, enabled := true,
          ignoreInputs := true, platform := .mac },
      hasFired := true, target := .document }
    rfl rfl (by decide) rfl (by decide)
  exact h.mpr (by decide)

/-- Claim C6: with input-suppression active (`ignoreInputs`, the default),
an event whose true origin is an editable control is skipped for a
registration whose scope is not exactly that origin element (no matcher, no
callback, no side effects, record unchanged); when the registration's scope
is exactly the origin element, suppression is overridden and the
registration fires on a matching press. -/
theorem input_suppression_unless_scoped :
    (∀ (env : DomEnv) (event : KeyEvent) (target : DomNode)
        (eventType : EventType) (registration : Registration),
      registration.options.ignoreInputs = true →
      isInputElement env event.target = true →
      ¬(event.target = some registration.target) →
      processRegistration env event target eventType registration =
        { matcherConsulted := false, callbackRun := false,
          preventedDefault := false, stoppedPropagation := false,
          registration := registration }) ∧
    (∀ (env : DomEnv) (event : KeyEvent) (target : DomNode)
        (registration : Registration),
      registration.options.ignoreInputs = true →
      isInputElement env event.target = true →
      event.target = some registration.target →
      isEventForTarget env event target = true →
      registration.options.enabled = true →
      registration.options.eventType = .keydown →
      ¬(registration.options.requireReset = true ∧
          registration.hasFired = true) →
      matchesKeyboardEvent event registration.parsedHotkey
        registration.options.platform = true →
      (processRegistration env event target .keydown
          registration).callbackRun = true) := by
  constructor
  · intro env event target eventType registration hig hinp hne
    unfold processRegistration
    cases eventType <;> split_ifs <;> simp_all
  · intro env event target registration hig hinp heq hfor hen hty hlatch hm
    unfold processRegistration
    split_ifs <;> simp_all

/-- Witness for C6: both conjuncts applied at concrete inputs — a plain-`K`
registration scoped to the document is suppressed while the origin is an
input element, and an identical registration scoped to that exact input
element fires. -/
theorem input_suppression_unless_scoped_witness :
    (processRegistration testEnv
      { key := "k", ctrlKey := false, shiftKey := false, altKey := false,
        metaKey := false, target := some (.elem 100),
        currentTarget := some .document }
      .document .keydown
      { id := 1, hotkey := ["k"],
        parsedHotkey :=
          { key := "K", ctrl := false, shift := false, alt := false,
            meta := false },
        cbId := 10, cbAction := .pure,
        options :=
          { preventDefault := false, stopPropagation := false,
            eventType := .keydown, requireReset := false, enabled := true,
            ignoreInputs := true, platform := .windows },
        hasFired := false, target := .document } =
      { matcherConsulted := false, callbackRun := false,
        preventedDefault := false, stoppedPropagation := false,
        registration :=
          { id := 1, hotkey := ["k"],
            parsedHotkey :=
              { key := "K", ctrl := false, shift := false, alt := false,
                meta := false },
            cbId := 10, cbAction := .pure,
            options :=
              { preventDefault := false, stopPropagation := false,
                eventType := .keydown, requireReset := false, enabled := true,
                ignoreInputs := true, platform := .windows },
            hasFired := false, target := .document } }) ∧
    (processRegistration testEnv
      { key := "k", ctrlKey := false, shiftKey := false, altKey := false,
        metaKey := false, target := some (.elem 100),
        currentTarget := some (.elem 100) }
      (.elem 100) .keydown
      { id := 2, hotkey := ["k"],
        parsedHotkey :=
          { key := "K", ctrl := false, shift := false, alt := false,
            meta := false },
        cbId := 11, cbAction := .pure,
        options :=
          { preventDefault := false, stopPropagation := false,
            eventType := .keydown, requireReset := false, enabled := true,
            ignoreInputs := true, platform := .windows },
        hasFired := false, target := .elem 100 }).callbackRun = true := by
  constructor
  · exact input_suppression_unless_scoped.1 testEnv
      { key := "k", ctrlKey := false, shiftKey := false, altKey := false,
        metaKey := false, target := some (.elem 100),
        currentTarget := some .document }
      .document .keydown
      { id := 1, hotkey := ["k"],
        parsedHotkey :=
          { key := "K", ctrl := false, shift := false, alt := false,
            meta := false },
        cbId := 10, cbAction := .pure,
        options :=
          { preventDefault := false, stopPropagation := false,
            eventType := .keydown, requireReset := false, enabled := true,
            ignoreInputs := true, platform := .windows },
        hasFired := false, target := .document }
      rfl (by decide) (by decide)
  · exact input_suppression_unless_scoped.2 testEnv
      { key := "k", ctrlKey := false, shiftKey := false, altKey := false,
        metaKey := false, target := some (.elem 100),
        currentTarget := some (.elem 100) }
      (.elem 100)
      { id := 2, hotkey := ["k"],
        parsedHotkey :=
          { key := "K", ctrl := false, shift := false, alt := false,
            meta := false },
        cbId := 11, cbAction := .pure,
        options :=
          { preventDefault := false, stopPropagation := false,
            eventType := .keydown, requireReset := false, enabled := true,
            ignoreInputs := true, platform := .windows },
        hasFired := false, target := .elem 100 }
      rfl (by decide) rfl (by decide) rfl rfl (by decide) (by decide)

theorem lookupTR_setTR_self (trs : List (DomNode × List Nat)) (t : DomNode)
    (ids : List Nat) : lookupTR (setTR trs t ids) t = some ids := by
  induction trs with
  | nil => simp [setTR, lookupTR]
  | cons hd tl ih =>
    obtain ⟨k, v⟩ := hd
    by_cases h : k = t
    · subst h
      simp [setTR, lookupTR]
    · simp [setTR, lookupTR, h, ih]

theorem lookupTR_setTR_ne (trs : List (DomNode × List Nat)) (t t' : DomNode)
    (ids : List Nat) (h : t' ≠ t) :
    lookupTR (setTR trs t ids) t' = lookupTR trs t' := by
  induction trs with
  | nil => simp [setTR, lookupTR, Ne.symm h]
  | cons hd tl ih =>
    obtain ⟨k, v⟩ := hd
    by_cases hk : k = t
    · subst hk
      simp [setTR, lookupTR, Ne.symm h]
    · by_cases hk' : k = t'
      · subst hk'
        simp [setTR, lookupTR, hk]
      · simp [setTR, lookupTR, hk, hk', ih]

theorem lookupTR_eraseKey_self (trs : List (DomNode × List Nat)) (t : DomNode) :
    lookupTR (eraseKeyTR trs t) t = none := by
  induction trs with
  | nil => simp [eraseKeyTR, lookupTR]
  | cons hd tl ih =>
    obtain ⟨k, v⟩ := hd
    by_cases hk : k = t
    · simp [eraseKeyTR, hk, ih]
    · simp [eraseKeyTR, lookupTR, hk, ih]

theorem lookupTR_eraseKey_ne (trs : List (DomNode × List Nat)) (t t' : DomNode)
    (h : t' ≠ t) :
    lookupTR (eraseKeyTR trs t) t' = lookupTR trs t' := by
  induction trs with
  | nil => simp [eraseKeyTR]
  | cons hd tl ih =>
    obtain ⟨k, v⟩ := hd
    by_cases hk : k = t
    · subst hk
      simp [eraseKeyTR, lookupTR, Ne.symm h, ih]
    · by_cases hk' : k = t'
      · subst hk'
        simp [eraseKeyTR, lookupTR, hk, ih]
      · simp [eraseKeyTR, lookupTR, hk, hk', ih]

theorem mem_ensure_self (ls : List DomNode) (t : DomNode) :
    t ∈ ensureListenersForTarget ls t := by
  unfold ensureListenersForTarget
  split_ifs with h <;> simp_all

theorem mem_ensure_ne (ls : List DomNode) (t t' : DomNode) (h : t' ≠ t) :
    t' ∈ ensureListenersForTarget ls t ↔ t' ∈ ls := by
  unfold ensureListenersForTarget
  split_ifs with hc <;> simp_all

theorem mem_eraseListener_self (ls : List DomNode) (t : DomNode) :
    t ∉ eraseListener ls t := by
  induction ls with
  | nil => simp [eraseListener]
  | cons hd tl ih =>
    by_cases h : hd = t
    · simpa [eraseListener, h] using ih
    · simp only [eraseListener, if_neg h, List.mem_cons]
      push_neg
      exact ⟨fun he => h he.symm, ih⟩

theorem mem_eraseListener_ne (ls : List DomNode) (t t' : DomNode)
    (h : t' ≠ t) : t' ∈ eraseListener ls t ↔ t' ∈ ls := by
  induction ls with
  | nil => simp [eraseListener]
  | cons hd tl ih =>
    by_cases hk : hd = t
    · subst hk
      simp [eraseListener, ih, Ne.symm h, h]
    · simp [eraseListener, hk, ih]

theorem eraseId_subset (ids : List Nat) (id : Nat) (x : Nat)
    (hx : x ∈ eraseId ids id) : x ∈ ids := by
  induction ids with
  | nil => simp [eraseId] at hx
  | cons hd tl ih =>
    by_cases h : hd = id
    · simp only [eraseId, if_pos h] at hx
      exact List.mem_cons_of_mem hd (ih hx)
    · simp only [eraseId, if_neg h, List.mem_cons] at hx
      rcases hx with h1 | h2
      · exact h1 ▸ List.mem_cons_self hd tl
      · exact List.mem_cons_of_mem hd (ih h2)


theorem listenInv_registerParsed (st : MState) (platformR : Platform)
    (toks : List String) (parsed : ParsedHotkey) (cbId : Nat)
    (cbAction : CbAction) (opts : OptArgs) (inv : ListenInv st) :
    ListenInv (registerParsed st platformR toks parsed cbId cbAction opts).1 := by
  intro t
  unfold registerParsed
  dsimp only
  by_cases ht : t = opts.target.getD .document
  · subst ht
    constructor
    · intro _
      simp [regIdsAt, addIdTR, lookupTR_setTR_self]
    · intro _
      exact mem_ensure_self _ _
  · have h1 := mem_ensure_ne st.targetListeners (opts.target.getD .document) t ht
    have h2 := lookupTR_setTR_ne st.targetRegs (opts.target.getD .document) t
      (((lookupTR st.targetRegs (opts.target.getD .document)).getD []) ++
        [st.counter + 1]) ht
    rw [regIdsAt]
    dsimp only
    rw [addIdTR, h2, h1]
    exact inv t

theorem listenInv_unregister (st : MState) (id : Nat) (inv : ListenInv st) :
    ListenInv (unregister st id) := by
  unfold unregister
  cases hfind : st.registrations.find? (fun r => r.id == id) with
  | none => exact inv
  | some reg =>
    dsimp only
    cases hlk : lookupTR st.targetRegs reg.target with
    | none => exact inv
    | some ids =>
      dsimp only
      by_cases hids : eraseId ids id = []
      · rw [if_pos hids]
        unfold removeListenersForTarget
        split_ifs with hc
        · intro t
          by_cases ht : t = reg.target
          · subst ht
            simp [regIdsAt, lookupTR_eraseKey_self, mem_eraseListener_self]
          · have h1 := mem_eraseListener_ne st.targetListeners reg.target t ht
            have h2 := lookupTR_eraseKey_ne (setTR st.targetRegs reg.target
              (eraseId ids id)) reg.target t ht
            have h3 := lookupTR_setTR_ne st.targetRegs reg.target t
              (eraseId ids id) ht
            rw [regIdsAt]
            dsimp only
            rw [h2, h3, h1]
            exact inv t
        · intro t
          by_cases ht : t = reg.target
          · subst ht
            constructor
            · intro hcl
              simp at hc
              exact absurd hcl hc
            · intro hne
              rw [regIdsAt] at hne
              dsimp only at hne
              rw [lookupTR_setTR_self, hids] at hne
              simp at hne
          · have h3 := lookupTR_setTR_ne st.targetRegs reg.target t
              (eraseId ids id) ht
            rw [regIdsAt]
            dsimp only
            rw [h3]
            exact inv t
      · rw [if_neg hids]
        intro t
        by_cases ht : t = reg.target
        · subst ht
          constructor
          · intro _
            rw [regIdsAt]
            dsimp only
            rw [lookupTR_setTR_self]
            simpa using hids
          · intro _
            have hnon : regIdsAt st reg.target ≠ [] := by
              obtain ⟨x, hx⟩ := List.exists_mem_of_ne_nil _ hids
              have hxids : x ∈ ids := eraseId_subset ids id x hx
              rw [regIdsAt, hlk]
              simp only [Option.getD_some]
              exact fun h0 => by simp [h0] at hxids
            exact (inv reg.target).mpr hnon
        · have h3 := lookupTR_setTR_ne st.targetRegs reg.target t
            (eraseId ids id) ht
          rw [regIdsAt]
          dsimp only
          rw [h3]
          exact inv t

theorem listenInv_applyOp (st : MState) (op : MOp) (inv : ListenInv st) :
    ListenInv (applyOp st op) := by
  cases op with
  | reg p toks cbId opts =>
    cases hp : parseHotkey toks (opts.platform.getD p) with
    | error e =>
      simpa only [applyOp, register, hp] using inv
    | ok parsed =>
      simpa only [applyOp, register, hp] using
        listenInv_registerParsed st (opts.platform.getD p) toks parsed cbId
          .pure opts inv
  | unreg id => exact listenInv_unregister st id inv
  | reset =>
    intro t
    simp [applyOp, destroy, regIdsAt, lookupTR]

theorem listenInv_foldl (ops : List MOp) :
    ∀ st : MState, ListenInv st → ListenInv (ops.foldl applyOp st) := by
  induction ops with
  | nil => intro st inv; exact inv
  | cons op rest ih =>
    intro st inv
    exact ih (applyOp st op) (listenInv_applyOp st op inv)

/-- Claim C5: after any sequence of `register`/`unregister` operations from a
fresh manager, a scope has its press/release listener pair attached if and
only if its registration-id set is non-empty. -/
theorem listeners_iff_nonempty_registrations (ops : List MOp) (t : DomNode) :
    t ∈ (runOps ops).targetListeners ↔ regIdsAt (runOps ops) t ≠ [] := by
  have hinit : ListenInv initState := by
    intro t0
    simp [initState, mkEmpty, regIdsAt, lookupTR]
  exact listenInv_foldl ops initState hinit t

theorem counter_removeListeners (st : MState) (t : DomNode) :
    (removeListenersForTarget st t).counter = st.counter := by
  unfold removeListenersForTarget
  split_ifs <;> rfl

theorem counter_unregister (st : MState) (id : Nat) :
    (unregister st id).counter = st.counter := by
  unfold unregister
  cases hfind : st.registrations.find? (fun r => r.id == id) with
  | none => rfl
  | some reg =>
    dsimp only
    cases hlk : lookupTR st.targetRegs reg.target with
    | none => rfl
    | some ids =>
      dsimp only
      split_ifs with h
      · exact counter_removeListeners _ _
      · rfl

theorem register_ok_id (st : MState) (p : Platform) (toks : List String)
    (cbId : Nat) (cbAction : CbAction) (opts : OptArgs) (st' : MState)
    (id : Nat) (h : register st p toks cbId cbAction opts = .ok (st', id)) :
    id = st.counter + 1 ∧ st'.counter = st.counter + 1 := by
  unfold register at h
  cases hp : parseHotkey toks (opts.platform.getD p) with
  | error e =>
    simp only [hp] at h
    exact absurd h (by simp)
  | ok parsed =>
    simp only [hp, Except.ok.injEq] at h
    have h1 : st' = (registerParsed st (opts.platform.getD p) toks parsed cbId
        cbAction opts).1 := by rw [h]
    have h2 : id = (registerParsed st (opts.platform.getD p) toks parsed cbId
        cbAction opts).2 := by rw [h]
    constructor
    · rw [h2]; rfl
    · rw [h1]; rfl

theorem assignedIdsFrom_chain (ops : List MOp) :
    ∀ st : MState,
      List.Pairwise (fun a b => a < b) (assignedIdsFrom st ops) ∧
      ∀ id ∈ assignedIdsFrom st ops, st.counter < id := by
  induction ops with
  | nil => intro st; simp [assignedIdsFrom]
  | cons op rest ih =>
    intro st
    cases op with
    | reg p toks cbId opts =>
      cases hr : register st p toks cbId .pure opts with
      | error e =>
        simpa only [assignedIdsFrom, hr] using ih st
      | ok pr =>
        obtain ⟨st', id⟩ := pr
        obtain ⟨hid, hcnt⟩ := register_ok_id st p toks cbId .pure opts st' id hr
        obtain ⟨hpw, hlt⟩ := ih st'
        simp only [assignedIdsFrom, hr]
        constructor
        · exact List.Pairwise.cons
            (fun b hb => by
              have := hlt b hb
              omega) hpw
        · intro x hx
          rcases List.mem_cons.mp hx with h1 | h2
          · omega
          · have := hlt x h2
            omega
    | unreg i =>
      obtain ⟨hpw, hlt⟩ := ih (unregister st i)
      refine ⟨hpw, fun x hx => ?_⟩
      have := hlt x hx
      rw [counter_unregister] at this
      exact this
    | reset =>
      obtain ⟨hpw, hlt⟩ := ih (destroy st)
      exact ⟨hpw, fun x hx => hlt x hx⟩

/-- Claim C10: registration ids come from a strictly increasing module-level
counter that no `destroy`/`resetInstance` clears, so across a whole process
lifetime — any sequence of register, unregister, and reset operations, hence
any succession of manager instances — no two `register` calls are ever
assigned the same id. -/
theorem registration_ids_nodup (ops : List MOp) :
    (assignedIds ops).Nodup := by
  have h := (assignedIdsFrom_chain ops initState).1
  exact h.imp (fun hab => Nat.ne_of_lt hab)

theorem seqStep_progress_lt (orderedKeys : List String)
    (timeoutMillis : Option Nat) (s : SeqState) (key : String) (now : Nat)
    (hne : orderedKeys ≠ [])
    (hp : s.progressIndex < orderedKeys.length) :
    (seqStep orderedKeys timeoutMillis s key now).1.progressIndex <
      orderedKeys.length := by
  have hlen : 0 < orderedKeys.length := List.length_pos.mpr hne
  have hq : seqEffProgress s now = 0 ∨ seqEffProgress s now = s.progressIndex := by
    unfold seqEffProgress
    rcases s.deadline with _ | d
    · exact Or.inr rfl
    · dsimp only
      split_ifs <;> simp
  have hqlt : seqEffProgress s now < orderedKeys.length := by
    rcases hq with h | h <;> omega
  unfold seqStep
  dsimp only
  by_cases h1 : Option.map canonKey (orderedKeys.get? (seqEffProgress s now)) =
      some (canonKey key)
  · rw [if_pos h1]
    by_cases h2 : seqEffProgress s now + 1 = orderedKeys.length
    · rw [if_pos h2]
      simpa using hlen
    · rw [if_neg h2]
      dsimp only
      omega
  · rw [if_neg h1]
    by_cases h3 : Option.map canonKey (orderedKeys.get? 0) = some (canonKey key)
    · rw [if_pos h3]
      dsimp only
      rcases Nat.eq_zero_or_pos (seqEffProgress s now) with h0 | h0
      · rw [h0] at h1
        exact absurd h3 h1
      · omega
    · rw [if_neg h3]
      simpa using hlen

/-- Claim C8: when a press does not match the sequence's current position
but does match its first key, the Sequence Engine restarts: progress becomes
1 and the timeout is (re)started — including immediately after an elapsed
timeout has silently reset progress to 0.  The position bound `hp` is the
reachability invariant `seqStep_progress_lt`. -/
theorem sequence_restart_on_first_key (orderedKeys : List String)
    (timeoutMillis : Option Nat) (s : SeqState) (key : String) (now : Nat)
    (hp : s.progressIndex < orderedKeys.length)
    (hmismatch : ¬((orderedKeys.get? s.progressIndex).map canonKey =
      some (canonKey key)))
    (hfirst : (orderedKeys.get? 0).map canonKey = some (canonKey key)) :
    (seqStep orderedKeys timeoutMillis s key now).1 =
      { progressIndex := 1,
        deadline := timeoutMillis.map (fun d => now + d) } ∧
    (seqStep orderedKeys timeoutMillis s key now).2 = false := by
  have hlen1 : orderedKeys.length ≠ 1 := by
    intro h1
    have hp0 : s.progressIndex = 0 := by omega
    rw [hp0] at hmismatch
    exact hmismatch hfirst
  have hq : seqEffProgress s now = 0 ∨ seqEffProgress s now = s.progressIndex := by
    unfold seqEffProgress
    rcases s.deadline with _ | d
    · exact Or.inr rfl
    · dsimp only
      split_ifs <;> simp
  unfold seqStep
  dsimp only
  rcases hq with h0 | h0 <;> simp only [h0]
  · rw [if_pos hfirst]
    simp only [Nat.zero_add]
    rw [if_neg (Ne.symm hlen1)]
    exact ⟨rfl, rfl⟩
  · rw [if_neg hmismatch, if_pos hfirst]
    exact ⟨rfl, rfl⟩

/-- Witness for C8: a two-key sequence `G X` at progress 1 sees another `g`:
progress restarts at 1 and the 500 ms timeout restarts from `now`. -/
theorem sequence_restart_on_first_key_witness :
    (seqStep ["G", "X"] (some 500)
        { progressIndex := 1, deadline := some 600 } "g" 100).1 =
      { progressIndex := 1, deadline := some 600 } ∧
    (seqStep ["G", "X"] (some 500)
        { progressIndex := 1, deadline := some 600 } "g" 100).2 = false := by
  have h := sequence_restart_on_first_key ["G", "X"] (some 500)
    { progressIndex := 1, deadline := some 600 } "g" 100
    (by decide) (by decide) (by decide)
  exact h


theorem tblLookup_mem {l : List (String × String)} {a v : String}
    (h : tblLookup a l = some v) : (a, v) ∈ l := by
  induction l with
  | nil => simp [tblLookup] at h
  | cons hd tl ih =>
    obtain ⟨k2, v2⟩ := hd
    by_cases hk : a = k2
    · subst hk
      simp only [tblLookup, if_true, eq_self_iff_true, if_pos,
        Option.some.injEq] at h
      subst h
      exact List.mem_cons_self _ _
    · simp only [tblLookup, if_neg hk] at h
      exact List.mem_cons_of_mem _ (ih h)

theorem canonTable_fixed :
    ∀ pr ∈ canonTable, tblLookup (lowerStr pr.2) canonTable = some pr.2 := by
  decide

theorem canonTable_notMod : ∀ pr ∈ canonTable, isModTok pr.2 = false := by
  decide

theorem canonTable_notBlank : ∀ pr ∈ canonTable, isBlank pr.2 = false := by
  decide

theorem canonKey_idem (k : String) : canonKey (canonKey k) = canonKey k := by
  unfold canonKey
  cases h : tblLookup (lowerStr k) canonTable with
  | none => rw [h]
  | some v =>
    have hv := canonTable_fixed _ (tblLookup_mem h)
    rw [hv]

theorem canonKey_notMod (k : String) (h : isModTok k = false) :
    isModTok (canonKey k) = false := by
  unfold canonKey
  cases hl : tblLookup (lowerStr k) canonTable with
  | none => exact h
  | some v => exact canonTable_notMod _ (tblLookup_mem hl)

theorem canonKey_blank (k : String) (h : isBlank (canonKey k) = true) :
    isBlank k = true := by
  unfold canonKey at h
  cases hl : tblLookup (lowerStr k) canonTable with
  | none => rwa [hl] at h
  | some v =>
    rw [hl] at h
    exact absurd h (by simp [canonTable_notBlank _ (tblLookup_mem hl)])

theorem applyModTok_key (p : Platform) (f : ParsedHotkey) (t : String) :
    (applyModTok p f t).key = f.key := by
  unfold applyModTok
  dsimp only
  split_ifs <;> rfl

theorem foldl_applyModTok_key (p : Platform) (ms : List String) :
    ∀ f : ParsedHotkey, (ms.foldl (applyModTok p) f).key = f.key := by
  induction ms with
  | nil => intro f; rfl
  | cons t rest ih =>
    intro f
    rw [List.foldl_cons, ih, applyModTok_key]

theorem anyFlag_applyModTok_mono (p : Platform) (f : ParsedHotkey) (t : String)
    (h : anyFlag f = true) : anyFlag (applyModTok p f t) = true := by
  unfold applyModTok
  dsimp only
  split_ifs <;> simp_all [anyFlag]

theorem anyFlag_applyModTok_modTok (p : Platform) (f : ParsedHotkey)
    (t : String) (h : isModTok t = true) :
    anyFlag (applyModTok p f t) = true := by
  have hmem : lowerStr t ∈ modifierTokens := by simpa [isModTok] using h
  simp only [modifierTokens, List.mem_cons, List.not_mem_nil, or_false] at hmem
  unfold applyModTok
  dsimp only
  rcases hmem with h1 | h1 | h1 | h1 | h1 | h1 | h1 | h1 | h1 | h1 <;>
    split_ifs <;> simp_all [anyFlag]

theorem anyFlag_foldl_mono (p : Platform) (ms : List String) :
    ∀ f : ParsedHotkey, anyFlag f = true →
      anyFlag (ms.foldl (applyModTok p) f) = true := by
  induction ms with
  | nil => intro f h; exact h
  | cons t rest ih =>
    intro f h
    rw [List.foldl_cons]
    exact ih _ (anyFlag_applyModTok_mono p f t h)

theorem anyFlag_foldl_of_mem (p : Platform) (ms : List String) :
    ∀ f : ParsedHotkey, ∀ t ∈ ms, isModTok t = true →
      anyFlag (ms.foldl (applyModTok p) f) = true := by
  induction ms with
  | nil => intro f t ht; simp at ht
  | cons a rest ih =>
    intro f t ht hmod
    rw [List.foldl_cons]
    rcases List.mem_cons.mp ht with h1 | h2
    · subst h1
      exact anyFlag_foldl_mono p rest _ (anyFlag_applyModTok_modTok p f t hmod)
    · exact ih _ t h2 hmod


theorem applyModTok_Control (p : Platform) (f : ParsedHotkey) :
    applyModTok p f "Control" = { f with ctrl := true } := rfl

theorem applyModTok_Alt (p : Platform) (f : ParsedHotkey) :
    applyModTok p f "Alt" = { f with alt := true } := rfl

theorem applyModTok_Shift (p : Platform) (f : ParsedHotkey) :
    applyModTok p f "Shift" = { f with shift := true } := rfl

theorem applyModTok_Meta (p : Platform) (f : ParsedHotkey) :
    applyModTok p f "Meta" = { f with meta := true } := rfl

theorem isModTok_Control : isModTok "Control" = true := by decide
theorem isModTok_Alt : isModTok "Alt" = true := by decide
theorem isModTok_Shift : isModTok "Shift" = true := by decide
theorem isModTok_Meta : isModTok "Meta" = true := by decide
theorem isBlank_Control : isBlank "Control" = false := by decide
theorem isBlank_Alt : isBlank "Alt" = false := by decide
theorem isBlank_Shift : isBlank "Shift" = false := by decide
theorem isBlank_Meta : isBlank "Meta" = false := by decide

/-- Claim C9: parsing is idempotent under round-trip — formatting a
successfully parsed descriptor back to its canonical token form and parsing
it again on the same platform returns the identical parsed value. -/
theorem parse_format_roundtrip (toks : List String) (p : Platform)
    (P : ParsedHotkey) (h : parseHotkey toks p = .ok P) :
    parseHotkey (formatParsedHotkey P) p = .ok P := by
  unfold parseHotkey at h
  by_cases hempty : toks.all (fun t => isBlank t)
  · rw [if_pos hempty] at h
    exact absurd h (by simp)
  · rw [if_neg hempty] at h
    cases hm : toks.filter (fun t => !isModTok t) with
    | nil =>
      rw [hm] at h
      exact absurd h (by simp)
    | cons k ks =>
      cases ks with
      | cons k2 ks2 =>
        rw [hm] at h
        exact absurd h (by simp)
      | nil =>
        rw [hm] at h
        simp only [Except.ok.injEq] at h
        have hkmem : k ∈ toks.filter (fun t => !isModTok t) := by
          rw [hm]
          exact List.mem_singleton.mpr rfl
        have hkmod : isModTok k = false := by
          have := List.of_mem_filter hkmem
          simpa using this
        have hPkey : P.key = canonKey k := by
          rw [← h]
          exact foldl_applyModTok_key p _ _
        obtain ⟨pk, pc, ps, pa, pm⟩ := P
        simp only at hPkey
        subst hPkey
        have hck_mod : isModTok (canonKey k) = false := canonKey_notMod k hkmod
        have hck_idem : canonKey (canonKey k) = canonKey k := canonKey_idem k
        cases pc <;> cases ps <;> cases pa <;> cases pm
        · have hblank : isBlank (canonKey k) = false := by
            cases hb : isBlank (canonKey k) with
            | false => rfl
            | true =>
            exfalso
            have hbk : isBlank k = true := canonKey_blank k hb
            rw [List.all_eq_true] at hempty
            push_neg at hempty
            obtain ⟨t, ht, htb⟩ := hempty
            by_cases hmodt : isModTok t = true
            · have hmem2 : t ∈ toks.filter isModTok := by
                rw [List.mem_filter]
                exact ⟨ht, hmodt⟩
              have := anyFlag_foldl_of_mem p (toks.filter isModTok)
                { key := canonKey k, ctrl := false, shift := false,
                  alt := false, meta := false } t hmem2 hmodt
              rw [h] at this
              simp [anyFlag] at this
            · have hmem2 : t ∈ toks.filter (fun t => !isModTok t) := by
                rw [List.mem_filter]
                simp [hmodt]
                exact ht
              rw [hm, List.mem_singleton] at hmem2
              subst hmem2
              simp [hbk] at htb
          simp [parseHotkey, formatParsedHotkey, hblank, hck_mod, hck_idem]
        all_goals
          simp [parseHotkey, formatParsedHotkey, hck_mod, hck_idem,
            isModTok_Control, isModTok_Alt, isModTok_Shift, isModTok_Meta,
            isBlank_Control, isBlank_Alt, isBlank_Shift, isBlank_Meta,
            applyModTok_Control, applyModTok_Alt, applyModTok_Shift,
            applyModTok_Meta]


/-- Witness for C9: the descriptor `Ctrl+Esc` parses to `Control+Escape`,
whose canonical form re-parses to the identical value. -/
theorem parse_format_roundtrip_witness :
    parseHotkey (formatParsedHotkey
      { key := "Escape", ctrl := true, shift := false, alt := false,
        meta := false }) .windows =
      .ok { key := "Escape", ctrl := true, shift := false, alt := false,
            meta := false } :=
  parse_format_roundtrip ["Ctrl", "Esc"] .windows
    { key := "Escape", ctrl := true, shift := false, alt := false,
      meta := false } rfl


/-- Claim C7 counterexample: a dispatch pass is not over a stable snapshot.
Concretely: one registration (id 1) for key `K` on the document is active at
the start of the pass (`regIdsAt` is `[1]`), its callback synchronously
registers a second matching hotkey, and the same pass then visits and fires
the new registration (id 2) on the same event — the pass fired `[1, 2]`. -/
theorem dispatch_not_snapshot_cex :
    (dispatchLoop testEnv .windows
      { key := "k", ctrlKey := false, shiftKey := false, altKey := false,
        metaKey := false, target := some (.elem 5),
        currentTarget := some .document }
      .document .keydown 3
      ({ counter := 1,
         registrations := [({ id := 1, hotkey := ["k"],
                              parsedHotkey := { key := "K", ctrl := false,
                                                shift := false, alt := false,
                                                meta := false },
                              cbId := 10,
                              cbAction := .registerHotkey ["k"] 20,
                              options := buildOptions {} .windows,
                              hasFired := false,
                              target := .document } : Registration)],
         targetListeners := [.document],
         targetRegs := [(.document, [1])] } : MState) []).2 = [1, 2] ∧
    regIdsAt
      ({ counter := 1,
         registrations := [({ id := 1, hotkey := ["k"],
                              parsedHotkey := { key := "K", ctrl := false,
                                                shift := false, alt := false,
                                                meta := false },
                              cbId := 10,
                              cbAction := .registerHotkey ["k"] 20,
                              options := buildOptions {} .windows,
                              hasFired := false,
                              target := .document } : Registration)],
         targetListeners := [.document],
         targetRegs := [(.document, [1])] } : MState) .document = [1] := by
  decide

/-- Claim C7 (amended): the dispatch pass iterates the live registration
set, not a snapshot — a matching registration added synchronously from
inside a callback during the pass is itself visited by the same pass and its
callback fires on the same event. -/
theorem dispatch_live_iteration (p : Platform) (toksA toksB : List String)
    (cbA cbB : Nat) (PA Q : ParsedHotkey) (env : DomEnv) (ev : KeyEvent)
    (stA : MState)
    (hA : parseHotkey toksA p = .ok PA)
    (hB : parseHotkey toksB p = .ok Q)
    (hreg : register initState p toksA cbA (.registerHotkey toksB cbB) {} =
      .ok (stA, 1))
    (hev1 : isEventForTarget env ev .document = true)
    (hev2 : isInputElement env ev.target = false)
    (hmA : matchesKeyboardEvent ev PA p = true)
    (hmB : matchesKeyboardEvent ev Q p = true) :
    (dispatchLoop env p ev .document .keydown 3 stA []).2 = [1, 2] := by
  have hp' : ({} : OptArgs).platform.getD p = p := rfl
  unfold register at hreg
  simp only [hp', hA, Except.ok.injEq] at hreg
  have hstA : stA =
      ({ counter := 1,
         registrations := [({ id := 1, hotkey := toksA, parsedHotkey := PA,
                              cbId := cbA,
                              cbAction := .registerHotkey toksB cbB,
                              options := buildOptions {} p,
                              hasFired := false,
                              target := .document } : Registration)],
         targetListeners := [.document],
         targetRegs := [(.document, [1])] } : MState) :=
    (congrArg Prod.fst hreg).symm
  subst hstA
  simp [show (3 : Nat) = 2 + 1 from rfl, dispatchLoop, regIdsAt, lookupTR,
    processRegistration, applyCbAction, register, registerParsed, buildOptions,
    addIdTR, setTR, ensureListenersForTarget, hev1, hev2, hmA, hmB, hB, hp']

/-- Witness for the amended C7 at a concrete input: a `G` registration whose
callback registers another `G` hotkey; one pass over one `g` keydown fires
both. -/
theorem dispatch_live_iteration_witness :
    (dispatchLoop testEnv .mac
      { key := "g", ctrlKey := false, shiftKey := false, altKey := false,
        metaKey := false, target := some (.elem 9),
        currentTarget := some .document }
      .document .keydown 3
      ({ counter := 1,
         registrations := [({ id := 1, hotkey := ["g"],
                              parsedHotkey := { key := "G", ctrl := false,
                                                shift := false, alt := false,
                                                meta := false },
                              cbId := 30,
                              cbAction := .registerHotkey ["g"] 40,
                              options := buildOptions {} .mac,
                              hasFired := false,
                              target := .document } : Registration)],
         targetListeners := [.document],
         targetRegs := [(.document, [1])] } : MState) []).2 = [1, 2] := by
  have h := dispatch_live_iteration .mac ["g"] ["g"] 30 40
    { key := "G", ctrl := false, shift := false, alt := false, meta := false }
    { key := "G", ctrl := false, shift := false, alt := false, meta := false }
    testEnv
    { key := "g", ctrlKey := false, shiftKey := false, altKey := false,
      metaKey := false, target := some (.elem 9),
      currentTarget := some .document }
    ({ counter := 1,
       registrations := [({ id := 1, hotkey := ["g"],
                            parsedHotkey := { key := "G", ctrl := false,
                                              shift := false, alt := false,
                                              meta := false },
                            cbId := 30,
                            cbAction := .registerHotkey ["g"] 40,
                            options := buildOptions {} .mac,
                            hasFired := false,
                            target := .document } : Registration)],
       targetListeners := [.document],
       targetRegs := [(.document, [1])] } : MState)
    rfl rfl rfl (by decide) (by decide) (by decide) (by decide)
  exact h


/-- Claim C1: conflict policies on a pair of register calls with identical
canonical parsed hotkeys on the same default (document) scope, from a fresh
manager.  The first call assigns id 1 and logs nothing.  With no explicit
policy (default `warn`) the second call logs exactly one warning and both
registrations stay active (`getRegistrationCount = 2`).  With `error` the
second call raises and the count stays 1 with the prior registration
untouched.  With `replace` the count stays 1, the surviving callback is the
second one, and a matching dispatch fires only it.  With `allow` no warning
is logged and a matching dispatch fires both callbacks. -/
theorem conflict_policy_behavior (p : Platform) (toks₁ toks₂ : List String)
    (cb₁ cb₂ : Nat) (P : ParsedHotkey) (env : DomEnv) (ev : KeyEvent)
    (h₁ : parseHotkey toks₁ p = .ok P)
    (h₂ : parseHotkey toks₂ p = .ok P)
    (hev1 : isEventForTarget env ev .document = true)
    (hev2 : isInputElement env ev.target = false)
    (hm : matchesKeyboardEvent ev P p = true) :
    ∃ st₁ : MState,
      registerWithConflict initState 0 p toks₁ cb₁ none {} = .ok (st₁, 1, 0) ∧
      getRegistrationCount st₁ = 1 ∧
      ((registerWithConflict st₁ 0 p toks₂ cb₂ none {}).map
        (fun r => (getRegistrationCount r.1, r.2.1, r.2.2)) =
        .ok (2, 2, 1)) ∧
      (registerWithConflict st₁ 0 p toks₂ cb₂ (some .error) {} =
        .error .conflictErr) ∧
      ((registerWithConflict st₁ 0 p toks₂ cb₂ (some .replace) {}).map
        (fun r => (getRegistrationCount r.1, r.2.2,
          r.1.registrations.map (fun reg => reg.cbId),
          (dispatchLoop env p ev .document .keydown 2 r.1 []).2)) =
        .ok (1, 0, [cb₂], [2])) ∧
      ((registerWithConflict st₁ 0 p toks₂ cb₂ (some .allow) {}).map
        (fun r => (getRegistrationCount r.1, r.2.2,
          (dispatchLoop env p ev .document .keydown 3 r.1 []).2)) =
        .ok (2, 0, [1, 2])) := by
  have hp' : ({} : OptArgs).platform.getD p = p := rfl
  refine ⟨({ counter := 1,
             registrations := [({ id := 1, hotkey := toks₁,
                                  parsedHotkey := P, cbId := cb₁,
                                  cbAction := .pure,
                                  options := buildOptions {} p,
                                  hasFired := false,
                                  target := .document } : Registration)],
             targetListeners := [.document],
             targetRegs := [(.document, [1])] } : MState), ?_, rfl, ?_, ?_, ?_, ?_⟩
  · simp [registerWithConflict, hp', h₁, registerParsed, initState, mkEmpty,
      addIdTR, lookupTR, setTR, ensureListenersForTarget]
  · simp [registerWithConflict, hp', h₂, registerParsed, getRegistrationCount,
      addIdTR, lookupTR, setTR, ensureListenersForTarget, Except.map]
  · simp [registerWithConflict, hp', h₂]
  · simp [registerWithConflict, hp', h₂, registerParsed, getRegistrationCount,
      unregister, eraseReg, eraseId, removeListenersForTarget, eraseListener,
      eraseKeyTR, addIdTR, lookupTR, setTR, ensureListenersForTarget,
      show (2 : Nat) = 1 + 1 from rfl, dispatchLoop, regIdsAt,
      processRegistration, applyCbAction, buildOptions, hev1, hev2, hm,
      Except.map]
  · simp [registerWithConflict, hp', h₂, registerParsed, getRegistrationCount,
      addIdTR, lookupTR, setTR, ensureListenersForTarget,
      show (3 : Nat) = 2 + 1 from rfl, dispatchLoop, regIdsAt,
      processRegistration, applyCbAction, buildOptions, hev1, hev2, hm,
      Except.map]


/-- Witness for C1 at a concrete input: two `k` registrations on the default
document scope, exercising all four policies. -/
theorem conflict_policy_behavior_witness :
    ∃ st₁ : MState,
      registerWithConflict initState 0 .windows ["k"] 10 none {} =
        .ok (st₁, 1, 0) ∧
      getRegistrationCount st₁ = 1 ∧
      ((registerWithConflict st₁ 0 .windows ["k"] 11 none {}).map
        (fun r => (getRegistrationCount r.1, r.2.1, r.2.2)) =
        .ok (2, 2, 1)) ∧
      (registerWithConflict st₁ 0 .windows ["k"] 11 (some .error) {} =
        .error .conflictErr) ∧
      ((registerWithConflict st₁ 0 .windows ["k"] 11 (some .replace) {}).map
        (fun r => (getRegistrationCount r.1, r.2.2,
          r.1.registrations.map (fun reg => reg.cbId),
          (dispatchLoop testEnv .windows
            { key := "k", ctrlKey := false, shiftKey := false,
              altKey := false, metaKey := false, target := some (.elem 5),
              currentTarget := some .document }
            .document .keydown 2 r.1 []).2)) =
        .ok (1, 0, [11], [2])) ∧
      ((registerWithConflict st₁ 0 .windows ["k"] 11 (some .allow) {}).map
        (fun r => (getRegistrationCount r.1, r.2.2,
          (dispatchLoop testEnv .windows
            { key := "k", ctrlKey := false, shiftKey := false,
              altKey := false, metaKey := false, target := some (.elem 5),
              currentTarget := some .document }
            .document .keydown 3 r.1 []).2)) =
        .ok (2, 0, [1, 2])) :=
  conflict_policy_behavior .windows ["k"] ["k"] 10 11
    { key := "K", ctrl := false, shift := false, alt := false, meta := false }
    testEnv
    { key := "k", ctrlKey := false, shiftKey := false, altKey := false,
      metaKey := false, target := some (.elem 5),
      currentTarget := some .document }
    rfl rfl (by decide) (by decide) (by decide)

end Hotkeys
